import Mathlib

/-!
# Verification of the bank-synchronization core of fin-wise-hub

Shallow embedding of the Pluggy edge function (`supabase/functions/pluggy`),
the bank tables schema (migration `20251204033017`), and the goal
auto-progress handler (`src/hooks/useGoals.tsx`).

Conventions of the embedding:
* monetary values (JS numbers) are modelled as exact rationals `ℚ`;
* local row identifiers (`gen_random_uuid()`) are modelled as a counter of
  naturals threaded through the store state (`DB.nextId`);
* network calls (`fetch` against the Pluggy API) are modelled as function
  parameters returning `Except String _`, an `error` being a thrown
  `Error(msg)`;
* `Deno.env` / supabase-client plumbing is collapsed into a `ServeEnv`
  record of the same effectful collaborators;
* JS `Date` values are modelled by calendar triples (`JSDate`), with the
  0-based month convention of `Date.getMonth`/`setMonth`; the ISO-string
  serialization of dates on the wire is elided (dates travel as `JSDate`).
-/

namespace FinWise

/-- One row of `public.bank_connections` (migration `20251203041019`). -/
structure BankConnection where
  id : String
  user_id : String
  pluggy_item_id : String
  connector_name : Option String
  connector_logo : Option String
  status : Option String
  last_sync_at : Option Nat
deriving DecidableEq

/-- An account object returned by the Pluggy `/accounts` endpoint, with the
fields the sync code reads. -/
structure PluggyAccount where
  id : String
  name : String
  type_ : Option String
  subtype : Option String
  balance : ℚ
  currencyCode : Option String
deriving DecidableEq

/-- A transaction object returned by the Pluggy `/transactions` endpoint,
with the fields the sync code reads. -/
structure PluggyTx where
  id : String
  description : Option String
  amount : ℚ
  date : String
  type_ : Option String
  category : Option String
deriving DecidableEq

/-- One row of `public.bank_accounts` (migration `20251204033017`).
`bank_data` holds the raw aggregator payload (`bank_data: account`). -/
structure BankAccount where
  id : Nat
  user_id : String
  bank_connection_id : String
  pluggy_account_id : String
  name : String
  type_ : Option String
  subtype : Option String
  balance : ℚ
  currency : String
  bank_data : PluggyAccount
  updated_at : Nat
deriving DecidableEq

/-- One row of `public.bank_transactions` (migration `20251204033017`).
`payment_data` holds the raw aggregator payload (`payment_data: tx`). -/
structure BankTransaction where
  id : Nat
  user_id : String
  bank_account_id : Nat
  pluggy_transaction_id : String
  description : Option String
  amount : ℚ
  date : String
  type_ : Option String
  category : Option String
  payment_data : PluggyTx
deriving DecidableEq

/-- The persisted store (the three bank tables), plus the fresh-identifier
counter standing for `gen_random_uuid()`. -/
structure DB where
  connections : List BankConnection
  accounts : List BankAccount
  transactions : List BankTransaction
  nextId : Nat
deriving DecidableEq

/-- A JS `Date` restricted to its calendar part: `year` = `getFullYear()`,
`month` = `getMonth()` (0-based), `day` = `getDate()` (1-based). -/
structure JSDate where
  year : Int
  month : Nat
  day : Nat
deriving DecidableEq

/-- Gregorian leap-year test (as used by JS `Date` normalization). -/
def isLeap (y : Int) : Bool :=
  (y % 4 == 0 && y % 100 != 0) || y % 400 == 0

/-- Number of days of 0-based month `m` of year `y`. -/
def daysInMonth (y : Int) (m : Nat) : Nat :=
  if m = 1 then (if isLeap y then 29 else 28)
  else if m = 3 ∨ m = 5 ∨ m = 8 ∨ m = 10 then 30
  else 31

/-- Model of lines 380-381 of the edge function:
`const threeMonthsAgo = new Date(); threeMonthsAgo.setMonth(threeMonthsAgo.getMonth() - 3);`
JS `setMonth` keeps the day-of-month and normalizes an overflowing day into
the following month (the overflow is at most 3 days, so one carry step
suffices). -/
def subThreeMonths (d : JSDate) : JSDate :=
  let y1 : Int := if d.month < 3 then d.year - 1 else d.year
  let m1 : Nat := if d.month < 3 then d.month + 9 else d.month - 3
  if d.day ≤ daysInMonth y1 m1 then ⟨y1, m1, d.day⟩
  else if m1 = 11 then ⟨y1 + 1, 0, d.day - daysInMonth y1 m1⟩
  else ⟨y1, m1 + 1, d.day - daysInMonth y1 m1⟩

/-- `supabase.from('bank_accounts').select('*').eq('pluggy_account_id', x).maybeSingle()`. -/
def findAccount (db : DB) (extId : String) : Option BankAccount :=
  db.accounts.find? (fun a => a.pluggy_account_id == extId)

/-- `supabase.from('bank_transactions').select('id').eq('pluggy_transaction_id', x).maybeSingle()`
collapsed to the existence test the sync loop makes of it. -/
def txExists (db : DB) (extId : String) : Bool :=
  db.transactions.any (fun t => t.pluggy_transaction_id == extId)

/-- The inner transaction loop of `syncBankData` (lines 394-423): for each
Pluggy transaction, if no row with its external identifier exists, insert a
new row (carrying `userId` and the derived `bankAccountId`) and count it;
otherwise skip it entirely. Returns the number of inserted rows and the
updated store. -/
def syncTxs (userId : String) (bankAccountId : Nat) :
    List PluggyTx → DB → Nat × DB
  | [], db => (0, db)
  | tx :: rest, db =>
    if txExists db tx.id then syncTxs userId bankAccountId rest db
    else
      let row : BankTransaction :=
        { id := db.nextId
          user_id := userId
          bank_account_id := bankAccountId
          pluggy_transaction_id := tx.id
          description := tx.description
          amount := tx.amount
          date := tx.date
          type_ := tx.type_
          category := tx.category
          payment_data := tx }
      let db' : DB :=
        { db with
          transactions := db.transactions ++ [row]
          nextId := db.nextId + 1 }
      let r := syncTxs userId bankAccountId rest db'
      (r.1 + 1, r.2)

/-- The account upsert of `syncBankData` (lines 326-375): look the account up
by `pluggy_account_id`; if found, overwrite name/type/subtype/balance/
currency/raw-payload/updated-at in place (keyed by the local `id`); if not
found, insert a new row with a fresh local identifier. Returns the local
row identifier used as `bankAccountId` downstream, and the updated store. -/
def upsertAccount (userId connectionId : String) (nowTs : Nat)
    (account : PluggyAccount) (db : DB) : Nat × DB :=
  match findAccount db account.id with
  | some existingAccount =>
    let db' : DB :=
      { db with
        accounts := db.accounts.map (fun a =>
          if a.id == existingAccount.id then
            { a with
              name := account.name
              type_ := account.type_
              subtype := account.subtype
              balance := account.balance
              currency := account.currencyCode.getD "BRL"
              bank_data := account
              updated_at := nowTs }
          else a) }
    (existingAccount.id, db')
  | none =>
    let row : BankAccount :=
      { id := db.nextId
        user_id := userId
        bank_connection_id := connectionId
        pluggy_account_id := account.id
        name := account.name
        type_ := account.type_
        subtype := account.subtype
        balance := account.balance
        currency := account.currencyCode.getD "BRL"
        bank_data := account
        updated_at := nowTs }
    (db.nextId, { db with accounts := db.accounts ++ [row], nextId := db.nextId + 1 })

/-- The per-account loop of `syncBankData` (lines 322-427). For each Pluggy
account: upsert it, compute the three-month-ago start date, call the
transaction fetch (`getTransactions`) with that date — recorded in the
returned call log — and run the transaction loop on its result; a failing
transaction fetch is caught (`catch (txError)`) and the loop continues with
the next account. Returns the `(accounts, transactions)` counters, the
updated store, and the log of transaction-fetch calls made. -/
def syncAccounts (userId connectionId : String)
    (fetchTx : String → JSDate → Except String (List PluggyTx))
    (now : JSDate) (nowTs : Nat) :
    List PluggyAccount → DB → (Nat × Nat) × DB × List (String × JSDate)
  | [], db => ((0, 0), db, [])
  | account :: rest, db =>
    let up := upsertAccount userId connectionId nowTs account db
    let threeMonthsAgo := subThreeMonths now
    let txr : Nat × DB :=
      match fetchTx account.id threeMonthsAgo with
      | .error _ => (0, up.2)
      | .ok txs => syncTxs userId up.1 txs up.2
    let r := syncAccounts userId connectionId fetchTx now nowTs rest txr.2
    ((r.1.1 + 1, r.1.2 + txr.1), r.2.1, (account.id, threeMonthsAgo) :: r.2.2)

/-- The final `last_sync_at` write of `syncBankData` (lines 430-433). -/
def stampLastSync (connectionId : String) (nowTs : Nat) (db : DB) : DB :=
  { db with
    connections := db.connections.map (fun c =>
      if c.id == connectionId then { c with last_sync_at := some nowTs } else c) }

/-- `syncBankData` (lines 303-441): fetch the Pluggy accounts for the item
(a thrown `UpstreamError` aborts the whole pass before any write), run the
per-account loop, then stamp `last_sync_at` on the connection row and return
the `{accounts, transactions}` counters (plus, in the model, the updated
store and the transaction-fetch call log). -/
def syncBankData (apiKey itemId connectionId userId : String)
    (fetchAccounts : String → String → Except String (List PluggyAccount))
    (fetchTx : String → JSDate → Except String (List PluggyTx))
    (now : JSDate) (nowTs : Nat) (db : DB) :
    Except String ((Nat × Nat) × DB × List (String × JSDate)) :=
  match fetchAccounts apiKey itemId with
  | .error e => .error e
  | .ok accounts =>
    let r := syncAccounts userId connectionId fetchTx now nowTs accounts db
    .ok (r.1, stampLastSync connectionId nowTs r.2.1, r.2.2)

/-! ## The serve handler (lines 443-512 of the edge function) -/

/-- First-occurrence removal of `pat` from a character list: the semantics of
JS `String.prototype.replace` with a string pattern (which replaces only the
first occurrence, here by the empty string). -/
def removeFirst (pat : List Char) : List Char → List Char
  | [] => []
  | c :: cs =>
    if List.isPrefixOf pat (c :: cs) then (c :: cs).drop pat.length
    else c :: removeFirst pat cs

/-- `authHeader.replace('Bearer ', '')` (line 266). -/
def stripBearer (s : String) : String :=
  ⟨removeFirst "Bearer ".data s.data⟩

/-- Substring occurrence test over character lists. -/
def containsSub (pat : List Char) : List Char → Bool
  | [] => List.isPrefixOf pat []
  | c :: cs => List.isPrefixOf pat (c :: cs) || containsSub pat cs

/-- JS `message.includes(pat)`. -/
def strContains (s pat : String) : Bool :=
  containsSub pat.data s.data

/-- The status-code selection of the catch block (lines 503-505):
`message.includes('authorization') || message.includes('authorized') ||
message.includes('token') ? 401 : 500`. -/
def errorStatus (msg : String) : Nat :=
  if strContains msg "authorization" || strContains msg "authorized" ||
      strContains msg "token" then 401
  else 500

/-- JS truthiness test for an optional request-body string field, as used by
`if (!itemId)` etc.: absent or empty means falsy. -/
def jsFalsy : Option String → Bool
  | none => true
  | some s => s == ""

/-- `verifyConnectionOwnership` (lines 279-300): select the connection row by
its local identifier; if the query yields no row, throw `Connection not
found`; if the owning user differs from the caller, throw `Not authorized to
access this connection`; otherwise succeed silently. -/
def verifyConnectionOwnership (db : DB) (connectionId userId : String) :
    Except String Unit :=
  match db.connections.find? (fun c => c.id == connectionId) with
  | none => .error "Connection not found"
  | some connection =>
    if connection.user_id ≠ userId then
      .error "Not authorized to access this connection"
    else .ok ()

/-- Milestones of one handler invocation, in completion order: the caller
identity was resolved from the JWT; the Pluggy API key was obtained; the
connection-ownership check passed; the sync pass body was entered. -/
inductive Step where
  | authUser
  | pluggyAuth
  | ownershipCheck
  | syncRun
deriving DecidableEq

/-- The handler's effectful collaborators: `supabase.auth.getUser` (token to
user identifier), `getPluggyApiKey`, `createConnectToken`, `getAccounts`,
`getTransactions` (with its optional `from` date), and the current time. -/
structure ServeEnv where
  tokenUser : String → Option String
  pluggyAuth : Except String String
  connectToken : String → Except String String
  fetchAccounts : String → String → Except String (List PluggyAccount)
  fetchTx : String → Option JSDate → Except String (List PluggyTx)
  now : JSDate
  nowTs : Nat

/-- One request to the pluggy function: the `Authorization` header and the
JSON body fields. `userId` is sent by at least one client
(`useBankConnections.syncConnection`) but never destructured by the handler
(line 457 reads only `action, itemId, accountId, connectionId, from`). -/
structure SyncRequest where
  authHeader : Option String
  action : String
  itemId : Option String
  accountId : Option String
  connectionId : Option String
  from_ : Option JSDate
  userId : Option String
deriving DecidableEq

/-- The response, reduced to the fields the claims are about: HTTP status,
the `{accounts, transactions}` counters of a successful sync, and the
`error` message of a failure. Raw passthrough payloads of the non-sync
actions are elided as opaque. -/
structure ServeOutcome where
  status : Nat
  counts : Option (Nat × Nat)
  errMsg : Option String
deriving DecidableEq

/-- An error response as produced by the catch block (lines 498-511). -/
def mkErr (msg : String) : ServeOutcome :=
  { status := errorStatus msg, counts := none, errMsg := some msg }

/-- A 200 response with no counters (non-sync actions). -/
def okOutcome : ServeOutcome :=
  { status := 200, counts := none, errMsg := none }

/-- The request handler (lines 443-512). In source order: resolve the caller
from the JWT (`getAuthenticatedUser`), parse the body, obtain the Pluggy API
key (`getPluggyApiKey`) — before the action dispatch — then dispatch on
`action`; the `sync` case checks `itemId`/`connectionId`, verifies
connection ownership, and runs `syncBankData` with the authenticated user
identifier. Every thrown error is caught and mapped to a status by
`errorStatus`. Returns the outcome, the store after the call, and the trace
of completed milestones. -/
def serveSync (env : ServeEnv) (req : SyncRequest) (db : DB) :
    ServeOutcome × DB × List Step :=
  match req.authHeader with
  | none => (mkErr "Missing authorization header", db, [])
  | some authHeader =>
    match env.tokenUser (stripBearer authHeader) with
    | none => (mkErr "Invalid or expired token", db, [])
    | some authenticatedUserId =>
      match env.pluggyAuth with
      | .error e => (mkErr e, db, [Step.authUser])
      | .ok apiKey =>
        let trace := [Step.authUser, Step.pluggyAuth]
        if req.action == "create-connect-token" then
          match env.connectToken apiKey with
          | .error e => (mkErr e, db, trace)
          | .ok _ => (okOutcome, db, trace)
        else if req.action == "get-accounts" then
          if jsFalsy req.itemId then (mkErr "itemId is required", db, trace)
          else
            match env.fetchAccounts apiKey (req.itemId.getD "") with
            | .error e => (mkErr e, db, trace)
            | .ok _ => (okOutcome, db, trace)
        else if req.action == "get-transactions" then
          if jsFalsy req.accountId then (mkErr "accountId is required", db, trace)
          else
            match env.fetchTx (req.accountId.getD "") req.from_ with
            | .error e => (mkErr e, db, trace)
            | .ok _ => (okOutcome, db, trace)
        else if req.action == "sync" then
          if jsFalsy req.itemId then (mkErr "itemId is required", db, trace)
          else if jsFalsy req.connectionId then
            (mkErr "connectionId is required", db, trace)
          else
            match verifyConnectionOwnership db (req.connectionId.getD "")
                authenticatedUserId with
            | .error e => (mkErr e, db, trace)
            | .ok _ =>
              match syncBankData apiKey (req.itemId.getD "")
                  (req.connectionId.getD "") authenticatedUserId
                  env.fetchAccounts (fun a d => env.fetchTx a (some d))
                  env.now env.nowTs db with
              | .error e =>
                (mkErr e, db, trace ++ [Step.ownershipCheck, Step.syncRun])
              | .ok (counts, db', _) =>
                ({ status := 200, counts := some counts, errMsg := none },
                 db', trace ++ [Step.ownershipCheck, Step.syncRun])
        else (mkErr ("Unknown action: " ++ req.action), db, trace)

/-! ## Goal auto-progress (`src/hooks/useGoals.tsx`, lines 82-160) -/

/-- One row of `public.goals`, with the fields the auto-progress handler
reads. `deadline` is a calendar date, modelled as an epoch-day count;
`none` is a SQL NULL. -/
structure Goal where
  id : Nat
  user_id : String
  name : String
  target_amount : ℚ
  current_amount : ℚ
  deadline : Option Nat
deriving DecidableEq

/-- The ordering of `.order('deadline', { ascending: true, nullsFirst: false })`:
deadline ascending, NULLs last. -/
def deadlineLE (a b : Goal) : Bool :=
  match a.deadline, b.deadline with
  | some x, some y => x ≤ y
  | some _, none => true
  | none, some _ => false
  | none, none => true

/-- Stable insert of `g` into a list sorted by `deadlineLE`. -/
def insertByDeadline (g : Goal) : List Goal → List Goal
  | [] => [g]
  | h :: t => if deadlineLE h g then h :: insertByDeadline g t else g :: h :: t

/-- Stable sort by `deadlineLE` (insertion sort). -/
def sortByDeadline : List Goal → List Goal
  | [] => []
  | g :: t => insertByDeadline g (sortByDeadline t)

/-- The goals query (lines 108-112): the user's goals ordered by deadline
ascending with NULLs last. -/
def fetchGoals (goals : List Goal) (uid : String) : List Goal :=
  sortByDeadline (goals.filter (fun g => g.user_id == uid))

/-- The realtime INSERT payload read by the handler (line 100):
`{ amount: number; type: string | null }`. -/
structure TxEvent where
  amount : ℚ
  type_ : Option String
deriving DecidableEq

/-- The realtime callback of `useGoals` (lines 98-150): on a newly inserted
bank transaction with positive amount or type `CREDIT`, fetch the user's
goals (deadline ascending, NULLs last), keep those with accumulated amount
strictly below target, and add 10% of the absolute transaction amount to
the first one, clamped to its target (`Math.min`); with no incomplete goal,
change nothing. `goals` is the goals table; the result is the table after
the callback. -/
def goalAutoProgress (goals : List Goal) (uid : String) (tx : TxEvent) :
    List Goal :=
  if tx.amount > 0 || tx.type_ == some "CREDIT" then
    let incomeAmount := |tx.amount|
    let currentGoals := fetchGoals goals uid
    let incompleteGoals :=
      currentGoals.filter (fun g => g.current_amount < g.target_amount)
    match incompleteGoals with
    | [] => goals
    | targetGoal :: _ =>
      let amountToAdd := incomeAmount * (1 / 10)
      let newAmount :=
        min (targetGoal.current_amount + amountToAdd) targetGoal.target_amount
      goals.map (fun g =>
        if g.id == targetGoal.id then { g with current_amount := newAmount }
        else g)
  else goals

/-! ## The persisted schema (migration `20251204033017`) -/

/-- One column declaration of the migration DDL. -/
structure ColumnDef where
  name : String
  sqlType : String
  notNull : Bool
  unique : Bool
  primaryKey : Bool
  referencesTable : Option String
  defaultVal : Option String
deriving DecidableEq

/-- `CREATE TABLE public.bank_accounts` (migration `20251204033017`,
lines 2-15), column by column. -/
def bankAccountsTable : List ColumnDef :=
  [⟨"id", "UUID", true, false, true, none, some "gen_random_uuid()"⟩,
   ⟨"user_id", "UUID", true, false, false, none, none⟩,
   ⟨"bank_connection_id", "UUID", true, false, false,
     some "bank_connections", none⟩,
   ⟨"pluggy_account_id", "TEXT", true, false, false, none, none⟩,
   ⟨"name", "TEXT", false, false, false, none, none⟩,
   ⟨"type", "TEXT", false, false, false, none, none⟩,
   ⟨"subtype", "TEXT", false, false, false, none, none⟩,
   ⟨"balance", "NUMERIC", false, false, false, none, some "0"⟩,
   ⟨"currency", "TEXT", false, false, false, none, some "'BRL'"⟩,
   ⟨"bank_data", "JSONB", false, false, false, none, none⟩,
   ⟨"created_at", "TIMESTAMP WITH TIME ZONE", true, false, false, none,
     some "now()"⟩,
   ⟨"updated_at", "TIMESTAMP WITH TIME ZONE", true, false, false, none,
     some "now()"⟩]

/-- `CREATE TABLE public.bank_transactions` (migration `20251204033017`,
lines 18-30), column by column. -/
def bankTransactionsTable : List ColumnDef :=
  [⟨"id", "UUID", true, false, true, none, some "gen_random_uuid()"⟩,
   ⟨"user_id", "UUID", true, false, false, none, none⟩,
   ⟨"bank_account_id", "UUID", true, false, false, some "bank_accounts", none⟩,
   ⟨"pluggy_transaction_id", "TEXT", true, true, false, none, none⟩,
   ⟨"description", "TEXT", false, false, false, none, none⟩,
   ⟨"amount", "NUMERIC", true, false, false, none, none⟩,
   ⟨"date", "DATE", true, false, false, none, none⟩,
   ⟨"type", "TEXT", false, false, false, none, none⟩,
   ⟨"category", "TEXT", false, false, false, none, none⟩,
   ⟨"payment_data", "JSONB", false, false, false, none, none⟩,
   ⟨"created_at", "TIMESTAMP WITH TIME ZONE", true, false, false, none,
     some "now()"⟩]

/-- Whether the schema enforces uniqueness of column `col` of `table`
(a declared `UNIQUE` constraint or a primary key). -/
def enforcesUnique (table : List ColumnDef) (col : String) : Bool :=
  table.any (fun c => c.name == col && (c.unique || c.primaryKey))

/-! ## Lemmas: the transaction insert loop -/

/-- The row inserted by the transaction loop (lines 403-415). -/
def insertedTxRow (u : String) (b : Nat) (tx : PluggyTx) (db : DB) :
    BankTransaction :=
  { id := db.nextId
    user_id := u
    bank_account_id := b
    pluggy_transaction_id := tx.id
    description := tx.description
    amount := tx.amount
    date := tx.date
    type_ := tx.type_
    category := tx.category
    payment_data := tx }

/-- The store after that insert. -/
def insertTxDB (u : String) (b : Nat) (tx : PluggyTx) (db : DB) : DB :=
  { db with
    transactions := db.transactions ++ [insertedTxRow u b tx db]
    nextId := db.nextId + 1 }

theorem syncTxs_nil (u : String) (b : Nat) (db : DB) :
    syncTxs u b [] db = (0, db) := rfl

theorem syncTxs_cons_skip (u : String) (b : Nat) (tx : PluggyTx)
    (rest : List PluggyTx) (db : DB) (h : txExists db tx.id = true) :
    syncTxs u b (tx :: rest) db = syncTxs u b rest db := by
  simp [syncTxs, h]

theorem syncTxs_cons_insert (u : String) (b : Nat) (tx : PluggyTx)
    (rest : List PluggyTx) (db : DB) (h : txExists db tx.id = false) :
    syncTxs u b (tx :: rest) db =
      ((syncTxs u b rest (insertTxDB u b tx db)).1 + 1,
       (syncTxs u b rest (insertTxDB u b tx db)).2) := by
  simp [syncTxs, h, insertTxDB, insertedTxRow]

theorem syncTxs_cons_insert_snd (u : String) (b : Nat) (tx : PluggyTx)
    (rest : List PluggyTx) (db : DB) (h : txExists db tx.id = false) :
    (syncTxs u b (tx :: rest) db).2 =
      (syncTxs u b rest (insertTxDB u b tx db)).2 := by
  rw [syncTxs_cons_insert u b tx rest db h]

/-- The transaction loop only appends rows, and every appended row carries
the `userId` passed into the pass. -/
theorem syncTxs_transactions (u : String) (b : Nat) (txs : List PluggyTx) :
    ∀ db : DB, ∃ new,
      (syncTxs u b txs db).2.transactions = db.transactions ++ new ∧
      ∀ r ∈ new, r.user_id = u := by
  induction txs with
  | nil => exact fun db => ⟨[], by simp [syncTxs_nil], by simp⟩
  | cons tx rest ih =>
    intro db
    by_cases h : txExists db tx.id
    · rw [syncTxs_cons_skip u b tx rest db h]
      exact ih db
    · rw [syncTxs_cons_insert_snd u b tx rest db (by simpa using h)]
      obtain ⟨new, hnew, hu⟩ := ih (insertTxDB u b tx db)
      refine ⟨insertedTxRow u b tx db :: new, ?_, ?_⟩
      · simpa [insertTxDB] using hnew
      · intro r hr
        rcases List.mem_cons.1 hr with hr | hr
        · subst hr; rfl
        · exact hu r hr

/-- The transaction loop does not touch accounts or connections and does
not decrease the identifier counter. -/
theorem syncTxs_accounts (u : String) (b : Nat) (txs : List PluggyTx) :
    ∀ db : DB, (syncTxs u b txs db).2.accounts = db.accounts ∧
      (syncTxs u b txs db).2.connections = db.connections := by
  induction txs with
  | nil => exact fun db => ⟨rfl, rfl⟩
  | cons tx rest ih =>
    intro db
    by_cases h : txExists db tx.id
    · rw [syncTxs_cons_skip u b tx rest db h]; exact ih db
    · rw [syncTxs_cons_insert_snd u b tx rest db (by simpa using h)]
      exact ⟨(ih _).1.trans rfl, (ih _).2.trans rfl⟩

/-- A transaction identifier present before the loop is still present after. -/
theorem syncTxs_txExists_mono (u : String) (b : Nat) (txs : List PluggyTx)
    (db : DB) (x : String) (h : txExists db x = true) :
    txExists (syncTxs u b txs db).2 x = true := by
  obtain ⟨new, hnew, -⟩ := syncTxs_transactions u b txs db
  simp only [txExists, hnew, List.any_append, Bool.or_eq_true]
  exact Or.inl h

/-- After the loop, every transaction of the input list is present in the
store by its external identifier. -/
theorem syncTxs_all_present (u : String) (b : Nat) (txs : List PluggyTx) :
    ∀ db : DB, ∀ tx ∈ txs, txExists (syncTxs u b txs db).2 tx.id = true := by
  induction txs with
  | nil => intro db tx h; cases h
  | cons tx rest ih =>
    intro db t ht
    by_cases h : txExists db tx.id
    · rw [syncTxs_cons_skip u b tx rest db h]
      rcases List.mem_cons.1 ht with rfl | ht
      · exact syncTxs_txExists_mono u b rest db t.id h
      · exact ih db t ht
    · rw [syncTxs_cons_insert_snd u b tx rest db (by simpa using h)]
      rcases List.mem_cons.1 ht with rfl | ht
      · refine syncTxs_txExists_mono u b rest _ t.id ?_
        simp [txExists, insertTxDB, insertedTxRow]
      · exact ih _ t ht

/-- If every transaction of the list is already present, the loop inserts
nothing, reports zero, and leaves the store untouched. -/
theorem syncTxs_all_skipped (u : String) (b : Nat) (txs : List PluggyTx) :
    ∀ db : DB, (∀ tx ∈ txs, txExists db tx.id = true) →
      syncTxs u b txs db = (0, db) := by
  induction txs with
  | nil => exact fun db _ => rfl
  | cons tx rest ih =>
    intro db hall
    rw [syncTxs_cons_skip u b tx rest db (hall tx (List.mem_cons_self tx rest))]
    exact ih db (fun t ht => hall t (List.mem_cons_of_mem tx ht))

/-- The loop preserves no-duplication of external transaction identifiers:
an identifier is only ever inserted when absent. -/
theorem syncTxs_nodup (u : String) (b : Nat) (txs : List PluggyTx) :
    ∀ db : DB,
      (db.transactions.map (fun t => t.pluggy_transaction_id)).Nodup →
      ((syncTxs u b txs db).2.transactions.map
        (fun t => t.pluggy_transaction_id)).Nodup := by
  induction txs with
  | nil => exact fun db h => h
  | cons tx rest ih =>
    intro db hnd
    by_cases h : txExists db tx.id
    · rw [syncTxs_cons_skip u b tx rest db h]; exact ih db hnd
    · rw [syncTxs_cons_insert_snd u b tx rest db (by simpa using h)]
      refine ih _ ?_
      have habs : ∀ t ∈ db.transactions, t.pluggy_transaction_id ≠ tx.id := by
        intro t ht heq
        have : txExists db tx.id = true := by
          simp only [txExists, List.any_eq_true]
          exact ⟨t, ht, by simp [heq]⟩
        simp [this] at h
      simp only [insertTxDB, List.map_append, insertedTxRow]
      rw [List.nodup_append]
      refine ⟨hnd, by simp, ?_⟩
      intro x hx
      simp only [List.map_map, List.mem_map] at hx
      obtain ⟨t, ht, rfl⟩ := hx
      simp only [List.map_cons, List.map_nil, List.mem_cons, List.not_mem_nil,
        or_false]
      exact habs t ht

/-! ## Lemmas: the account upsert -/

/-- Some account row with external identifier `x` is in the store. -/
def acctPresent (db : DB) (x : String) : Prop :=
  ∃ a ∈ db.accounts, a.pluggy_account_id = x

theorem upsertAccount_transactions (u cid : String) (ts : Nat)
    (pa : PluggyAccount) (db : DB) :
    (upsertAccount u cid ts pa db).2.transactions = db.transactions ∧
    (upsertAccount u cid ts pa db).2.connections = db.connections := by
  unfold upsertAccount
  cases h : findAccount db pa.id <;> simp

theorem upsertAccount_txExists (u cid : String) (ts : Nat)
    (pa : PluggyAccount) (db : DB) (x : String) :
    txExists (upsertAccount u cid ts pa db).2 x = txExists db x := by
  unfold txExists
  rw [(upsertAccount_transactions u cid ts pa db).1]

/-- After the upsert, an account row with the reported external identifier
is present. -/
theorem upsertAccount_present (u cid : String) (ts : Nat)
    (pa : PluggyAccount) (db : DB) :
    acctPresent (upsertAccount u cid ts pa db).2 pa.id := by
  unfold upsertAccount
  cases h : findAccount db pa.id with
  | none =>
    unfold acctPresent
    simp only [List.mem_append, List.mem_singleton]
    exact ⟨_, Or.inr rfl, rfl⟩
  | some ex =>
    have hmem : ex ∈ db.accounts := List.mem_of_find?_eq_some h
    have hid : ex.pluggy_account_id = pa.id := by
      have := List.find?_some h
      simpa [beq_iff_eq] using this
    exact ⟨_, List.mem_map.2 ⟨ex, hmem, rfl⟩, by simp [hid]⟩

/-- The upsert never removes an external account identifier from the store. -/
theorem upsertAccount_present_mono (u cid : String) (ts : Nat)
    (pa : PluggyAccount) (db : DB) (x : String) (h : acctPresent db x) :
    acctPresent (upsertAccount u cid ts pa db).2 x := by
  obtain ⟨a, ha, hx⟩ := h
  unfold upsertAccount
  cases hf : findAccount db pa.id with
  | none => exact ⟨a, by simp [ha], hx⟩
  | some ex =>
    refine ⟨_, List.mem_map.2 ⟨a, ha, rfl⟩, ?_⟩
    by_cases hid : a.id == ex.id <;> simp [hid, hx]

/-- Every account row after the upsert either keeps the local identifier and
owning user of a pre-existing row, or is the newly inserted row carrying
the `userId` of the pass. -/
theorem upsertAccount_user_ids (u cid : String) (ts : Nat)
    (pa : PluggyAccount) (db : DB) :
    ∀ a ∈ (upsertAccount u cid ts pa db).2.accounts,
      (∃ b ∈ db.accounts, b.id = a.id ∧ b.user_id = a.user_id) ∨
        a.user_id = u := by
  unfold upsertAccount
  cases hf : findAccount db pa.id with
  | some ex =>
    intro a ha
    obtain ⟨b, hb, rfl⟩ := List.mem_map.1 ha
    left
    by_cases hid : b.id == ex.id <;> simp [hid] <;> exact ⟨b, hb, rfl, rfl⟩
  | none =>
    intro a ha
    rcases List.mem_append.1 ha with h | h
    · exact Or.inl ⟨a, h, rfl, rfl⟩
    · simp only [List.mem_singleton] at h
      subst h
      exact Or.inr rfl

/-! ## Lemmas: the per-account loop -/

theorem syncAccounts_cons_err (u cid : String)
    (ft : String → JSDate → Except String (List PluggyTx)) (now : JSDate)
    (ts : Nat) (pa : PluggyAccount) (rest : List PluggyAccount) (db : DB)
    (e : String) (hf : ft pa.id (subThreeMonths now) = .error e) :
    syncAccounts u cid ft now ts (pa :: rest) db =
      (((syncAccounts u cid ft now ts rest
          (upsertAccount u cid ts pa db).2).1.1 + 1,
        (syncAccounts u cid ft now ts rest
          (upsertAccount u cid ts pa db).2).1.2),
       (syncAccounts u cid ft now ts rest
          (upsertAccount u cid ts pa db).2).2.1,
       (pa.id, subThreeMonths now) ::
        (syncAccounts u cid ft now ts rest
          (upsertAccount u cid ts pa db).2).2.2) := by
  simp [syncAccounts, hf]

theorem syncAccounts_cons_ok (u cid : String)
    (ft : String → JSDate → Except String (List PluggyTx)) (now : JSDate)
    (ts : Nat) (pa : PluggyAccount) (rest : List PluggyAccount) (db : DB)
    (txs : List PluggyTx) (hf : ft pa.id (subThreeMonths now) = .ok txs) :
    syncAccounts u cid ft now ts (pa :: rest) db =
      (((syncAccounts u cid ft now ts rest
          (syncTxs u (upsertAccount u cid ts pa db).1 txs
            (upsertAccount u cid ts pa db).2).2).1.1 + 1,
        (syncAccounts u cid ft now ts rest
          (syncTxs u (upsertAccount u cid ts pa db).1 txs
            (upsertAccount u cid ts pa db).2).2).1.2 +
          (syncTxs u (upsertAccount u cid ts pa db).1 txs
            (upsertAccount u cid ts pa db).2).1),
       (syncAccounts u cid ft now ts rest
          (syncTxs u (upsertAccount u cid ts pa db).1 txs
            (upsertAccount u cid ts pa db).2).2).2.1,
       (pa.id, subThreeMonths now) ::
        (syncAccounts u cid ft now ts rest
          (syncTxs u (upsertAccount u cid ts pa db).1 txs
            (upsertAccount u cid ts pa db).2).2).2.2) := by
  simp [syncAccounts, hf]

/-- The transaction-fetch call log of a pass: one call per listed account,
in order, each with the same three-months-ago start date. -/
theorem syncAccounts_log (u cid : String)
    (ft : String → JSDate → Except String (List PluggyTx)) (now : JSDate)
    (ts : Nat) (accts : List PluggyAccount) :
    ∀ db : DB, (syncAccounts u cid ft now ts accts db).2.2 =
      accts.map (fun pa => (pa.id, subThreeMonths now)) := by
  induction accts with
  | nil => intro db; rfl
  | cons pa rest ih =>
    intro db
    cases hf : ft pa.id (subThreeMonths now) with
    | error e => rw [syncAccounts_cons_err u cid ft now ts pa rest db e hf]; simp [ih]
    | ok txs => rw [syncAccounts_cons_ok u cid ft now ts pa rest db txs hf]; simp [ih]

theorem txExists_of_append (db db' : DB) (new : List BankTransaction)
    (h : db'.transactions = db.transactions ++ new) (x : String)
    (hx : txExists db x = true) : txExists db' x = true := by
  simp only [txExists, h, List.any_append, Bool.or_eq_true]
  exact Or.inl hx

/-- A pass only appends transaction rows, each carrying the pass `userId`. -/
theorem syncAccounts_transactions (u cid : String)
    (ft : String → JSDate → Except String (List PluggyTx)) (now : JSDate)
    (ts : Nat) (accts : List PluggyAccount) :
    ∀ db : DB, ∃ new,
      (syncAccounts u cid ft now ts accts db).2.1.transactions =
        db.transactions ++ new ∧
      ∀ r ∈ new, r.user_id = u := by
  induction accts with
  | nil => exact fun db => ⟨[], by simp [syncAccounts], by simp⟩
  | cons pa rest ih =>
    intro db
    have hup := (upsertAccount_transactions u cid ts pa db).1
    cases hf : ft pa.id (subThreeMonths now) with
    | error e =>
      rw [syncAccounts_cons_err u cid ft now ts pa rest db e hf]
      obtain ⟨new, hnew, hu⟩ := ih (upsertAccount u cid ts pa db).2
      exact ⟨new, by rw [hnew, hup], hu⟩
    | ok txs =>
      rw [syncAccounts_cons_ok u cid ft now ts pa rest db txs hf]
      obtain ⟨n1, h1, hu1⟩ :=
        syncTxs_transactions u (upsertAccount u cid ts pa db).1 txs
          (upsertAccount u cid ts pa db).2
      obtain ⟨n2, h2, hu2⟩ :=
        ih (syncTxs u (upsertAccount u cid ts pa db).1 txs
          (upsertAccount u cid ts pa db).2).2
      refine ⟨n1 ++ n2, ?_, ?_⟩
      · rw [h2, h1, hup, List.append_assoc]
      · intro r hr
        rcases List.mem_append.1 hr with hr | hr
        · exact hu1 r hr
        · exact hu2 r hr

theorem syncAccounts_txExists_mono (u cid : String)
    (ft : String → JSDate → Except String (List PluggyTx)) (now : JSDate)
    (ts : Nat) (accts : List PluggyAccount) (db : DB) (x : String)
    (hx : txExists db x = true) :
    txExists (syncAccounts u cid ft now ts accts db).2.1 x = true := by
  obtain ⟨new, hnew, -⟩ := syncAccounts_transactions u cid ft now ts accts db
  exact txExists_of_append db _ new hnew x hx

/-- A pass never loses an external account identifier. -/
theorem syncAccounts_acct_mono (u cid : String)
    (ft : String → JSDate → Except String (List PluggyTx)) (now : JSDate)
    (ts : Nat) (accts : List PluggyAccount) :
    ∀ db : DB, ∀ x : String, acctPresent db x →
      acctPresent (syncAccounts u cid ft now ts accts db).2.1 x := by
  induction accts with
  | nil => exact fun db x h => h
  | cons pa rest ih =>
    intro db x h
    have h1 := upsertAccount_present_mono u cid ts pa db x h
    cases hf : ft pa.id (subThreeMonths now) with
    | error e =>
      rw [syncAccounts_cons_err u cid ft now ts pa rest db e hf]
      exact ih _ x h1
    | ok txs =>
      rw [syncAccounts_cons_ok u cid ft now ts pa rest db txs hf]
      refine ih _ x ?_
      unfold acctPresent at h1 ⊢
      rw [(syncTxs_accounts u (upsertAccount u cid ts pa db).1 txs
        (upsertAccount u cid ts pa db).2).1]
      exact h1

/-- After a pass, every listed account is present by external identifier —
including accounts listed after one whose transaction fetch failed. -/
theorem syncAccounts_all_accts (u cid : String)
    (ft : String → JSDate → Except String (List PluggyTx)) (now : JSDate)
    (ts : Nat) (accts : List PluggyAccount) :
    ∀ db : DB, ∀ pa ∈ accts,
      acctPresent (syncAccounts u cid ft now ts accts db).2.1 pa.id := by
  induction accts with
  | nil => intro db pa h; cases h
  | cons pa rest ih =>
    intro db q hq
    have hpres := upsertAccount_present u cid ts pa db
    rcases List.mem_cons.1 hq with rfl | hq
    · cases hf : ft q.id (subThreeMonths now) with
      | error e =>
        rw [syncAccounts_cons_err u cid ft now ts q rest db e hf]
        exact syncAccounts_acct_mono u cid ft now ts rest _ q.id hpres
      | ok txs =>
        rw [syncAccounts_cons_ok u cid ft now ts q rest db txs hf]
        refine syncAccounts_acct_mono u cid ft now ts rest _ q.id ?_
        unfold acctPresent at hpres ⊢
        rw [(syncTxs_accounts u (upsertAccount u cid ts q db).1 txs
          (upsertAccount u cid ts q db).2).1]
        exact hpres
    · cases hf : ft pa.id (subThreeMonths now) with
      | error e =>
        rw [syncAccounts_cons_err u cid ft now ts pa rest db e hf]
        exact ih _ q hq
      | ok txs =>
        rw [syncAccounts_cons_ok u cid ft now ts pa rest db txs hf]
        exact ih _ q hq

/-- With every transaction fetch succeeding, after the pass every fetched
transaction is present in the store by its external identifier. -/
theorem syncAccounts_all_present (u cid : String)
    (F : String → JSDate → List PluggyTx) (now : JSDate) (ts : Nat)
    (accts : List PluggyAccount) :
    ∀ db : DB, ∀ pa ∈ accts, ∀ t ∈ F pa.id (subThreeMonths now),
      txExists
        (syncAccounts u cid (fun a d => .ok (F a d)) now ts accts db).2.1
        t.id = true := by
  induction accts with
  | nil => intro db pa h; cases h
  | cons pa rest ih =>
    intro db q hq t ht
    rcases List.mem_cons.1 hq with rfl | hq
    · rw [syncAccounts_cons_ok u cid _ now ts q rest db
        (F q.id (subThreeMonths now)) rfl]
      refine syncAccounts_txExists_mono u cid _ now ts rest _ t.id ?_
      exact syncTxs_all_present u (upsertAccount u cid ts q db).1
        (F q.id (subThreeMonths now)) (upsertAccount u cid ts q db).2 t ht
    · rw [syncAccounts_cons_ok u cid _ now ts pa rest db
        (F pa.id (subThreeMonths now)) rfl]
      exact ih _ q hq t ht

/-- Second-pass behaviour: if every transaction the fetcher would return is
already present, the pass inserts no transaction row, reports 0, and leaves
the transactions table unchanged. -/
theorem syncAccounts_all_skipped (u cid : String)
    (F : String → JSDate → List PluggyTx) (now : JSDate) (ts : Nat)
    (accts : List PluggyAccount) :
    ∀ db : DB,
      (∀ pa ∈ accts, ∀ t ∈ F pa.id (subThreeMonths now),
        txExists db t.id = true) →
      (syncAccounts u cid (fun a d => .ok (F a d)) now ts accts db).1.2 = 0 ∧
      (syncAccounts u cid (fun a d => .ok (F a d)) now ts accts
        db).2.1.transactions = db.transactions := by
  induction accts with
  | nil => exact fun db _ => ⟨rfl, rfl⟩
  | cons pa rest ih =>
    intro db hall
    rw [syncAccounts_cons_ok u cid _ now ts pa rest db
      (F pa.id (subThreeMonths now)) rfl]
    have hupeq := upsertAccount_txExists u cid ts pa db
    have hskip : syncTxs u (upsertAccount u cid ts pa db).1
        (F pa.id (subThreeMonths now)) (upsertAccount u cid ts pa db).2 =
        (0, (upsertAccount u cid ts pa db).2) := by
      refine syncTxs_all_skipped u (upsertAccount u cid ts pa db).1
        (F pa.id (subThreeMonths now)) (upsertAccount u cid ts pa db).2 ?_
      intro t ht
      rw [hupeq t.id]
      exact hall pa (List.mem_cons_self pa rest) t ht
    rw [hskip]
    have hrest := ih (upsertAccount u cid ts pa db).2 (by
      intro q hq t ht
      rw [hupeq t.id]
      exact hall q (List.mem_cons_of_mem pa hq) t ht)
    refine ⟨by simpa using hrest.1, ?_⟩
    rw [hrest.2, (upsertAccount_transactions u cid ts pa db).1]

/-- A pass preserves no-duplication of external transaction identifiers. -/
theorem syncAccounts_nodup (u cid : String)
    (ft : String → JSDate → Except String (List PluggyTx)) (now : JSDate)
    (ts : Nat) (accts : List PluggyAccount) :
    ∀ db : DB,
      (db.transactions.map (fun t => t.pluggy_transaction_id)).Nodup →
      ((syncAccounts u cid ft now ts accts db).2.1.transactions.map
        (fun t => t.pluggy_transaction_id)).Nodup := by
  induction accts with
  | nil => exact fun db h => h
  | cons pa rest ih =>
    intro db hnd
    have hup := (upsertAccount_transactions u cid ts pa db).1
    cases hf : ft pa.id (subThreeMonths now) with
    | error e =>
      rw [syncAccounts_cons_err u cid ft now ts pa rest db e hf]
      exact ih _ (by rw [hup]; exact hnd)
    | ok txs =>
      rw [syncAccounts_cons_ok u cid ft now ts pa rest db txs hf]
      refine ih _ ?_
      refine syncTxs_nodup u (upsertAccount u cid ts pa db).1 txs
        (upsertAccount u cid ts pa db).2 ?_
      rw [hup]
      exact hnd

/-- Provenance of account rows across a pass: each either keeps the local
identifier and owning user of a pre-existing row, or was inserted carrying
the pass `userId`. -/
theorem syncAccounts_user_ids (u cid : String)
    (ft : String → JSDate → Except String (List PluggyTx)) (now : JSDate)
    (ts : Nat) (accts : List PluggyAccount) :
    ∀ db : DB, ∀ a ∈ (syncAccounts u cid ft now ts accts db).2.1.accounts,
      (∃ b ∈ db.accounts, b.id = a.id ∧ b.user_id = a.user_id) ∨
        a.user_id = u := by
  induction accts with
  | nil => exact fun db a ha => Or.inl ⟨a, ha, rfl, rfl⟩
  | cons pa rest ih =>
    intro db a ha
    have step : ∀ mid : DB,
        mid.accounts = (upsertAccount u cid ts pa db).2.accounts →
        a ∈ (syncAccounts u cid ft now ts rest mid).2.1.accounts →
        (∃ b ∈ db.accounts, b.id = a.id ∧ b.user_id = a.user_id) ∨
          a.user_id = u := by
      intro mid hmid hamem
      rcases ih mid a hamem with ⟨b, hb, hid, huid⟩ | hu
      · rw [hmid] at hb
        rcases upsertAccount_user_ids u cid ts pa db b hb with
          ⟨c, hc, hcid, hcu⟩ | hbu
        · exact Or.inl ⟨c, hc, hcid.trans hid, hcu.trans huid⟩
        · exact Or.inr (huid.symm.trans hbu)
      · exact Or.inr hu
    cases hf : ft pa.id (subThreeMonths now) with
    | error e =>
      rw [syncAccounts_cons_err u cid ft now ts pa rest db e hf] at ha
      exact step _ rfl ha
    | ok txs =>
      rw [syncAccounts_cons_ok u cid ft now ts pa rest db txs hf] at ha
      exact step _ (syncTxs_accounts u (upsertAccount u cid ts pa db).1 txs
        (upsertAccount u cid ts pa db).2).1 ha

/-! ## Lemmas: the whole pass -/

theorem stampLastSync_transactions (cid : String) (ts : Nat) (db : DB) :
    (stampLastSync cid ts db).transactions = db.transactions := rfl

theorem stampLastSync_accounts (cid : String) (ts : Nat) (db : DB) :
    (stampLastSync cid ts db).accounts = db.accounts := rfl

/-- Eliminating a successful `syncBankData` run into its components. -/
theorem syncBankData_ok_elim (k i cid u : String)
    (fa : String → String → Except String (List PluggyAccount))
    (ft : String → JSDate → Except String (List PluggyTx)) (now : JSDate)
    (ts : Nat) (db : DB) (c : Nat × Nat) (db' : DB)
    (log : List (String × JSDate))
    (h : syncBankData k i cid u fa ft now ts db = .ok (c, db', log)) :
    ∃ accts, fa k i = .ok accts ∧
      c = (syncAccounts u cid ft now ts accts db).1 ∧
      db' = stampLastSync cid ts (syncAccounts u cid ft now ts accts db).2.1 ∧
      log = (syncAccounts u cid ft now ts accts db).2.2 := by
  unfold syncBankData at h
  cases hfa : fa k i with
  | error e => rw [hfa] at h; cases h
  | ok accts =>
    rw [hfa] at h
    simp only [Except.ok.injEq, Prod.mk.injEq] at h
    exact ⟨accts, rfl, h.1.symm, h.2.1.symm, h.2.2.symm⟩

/-! ## Claim C1 -/

/-- C1. Transaction sync is idempotent by external transaction identifier:
with the aggregator returning the same account and transaction lists, a
first pass only appends transaction rows (never re-inserts or mutates a
present row), keeps external transaction identifiers duplicate-free
(each inserted exactly once), and leaves every fetched identifier present;
a second identical pass returns a transaction count of 0 and changes no
transaction row. -/
theorem sync_idempotent_by_tx_id (apiKey itemId connectionId userId : String)
    (accts : List PluggyAccount) (F : String → JSDate → List PluggyTx)
    (now : JSDate) (ts1 ts2 : Nat) (db0 db1 db2 : DB) (c1 c2 : Nat × Nat)
    (log1 log2 : List (String × JSDate))
    (hnd : (db0.transactions.map (fun t => t.pluggy_transaction_id)).Nodup)
    (h1 : syncBankData apiKey itemId connectionId userId
      (fun _ _ => .ok accts) (fun a d => .ok (F a d)) now ts1 db0 =
      .ok (c1, db1, log1))
    (h2 : syncBankData apiKey itemId connectionId userId
      (fun _ _ => .ok accts) (fun a d => .ok (F a d)) now ts2 db1 =
      .ok (c2, db2, log2)) :
    (∃ new, db1.transactions = db0.transactions ++ new) ∧
    (db1.transactions.map (fun t => t.pluggy_transaction_id)).Nodup ∧
    c2.2 = 0 ∧
    db2.transactions = db1.transactions := by
  obtain ⟨a1, hfa1, -, hdb1, -⟩ :=
    syncBankData_ok_elim apiKey itemId connectionId userId _ _ now ts1 db0
      c1 db1 log1 h1
  obtain ⟨a2, hfa2, hc2, hdb2, -⟩ :=
    syncBankData_ok_elim apiKey itemId connectionId userId _ _ now ts2 db1
      c2 db2 log2 h2
  have ha1 : a1 = accts := by
    have := hfa1.symm
    simpa using this
  have ha2 : a2 = accts := by
    have := hfa2.symm
    simpa using this
  rw [ha1] at hdb1
  rw [ha2] at hc2 hdb2
  have htr1 : db1.transactions =
      (syncAccounts userId connectionId (fun a d => .ok (F a d)) now ts1
        accts db0).2.1.transactions := by
    rw [hdb1, stampLastSync_transactions]
  have hpres : ∀ pa ∈ accts, ∀ t ∈ F pa.id (subThreeMonths now),
      txExists db1 t.id = true := by
    intro pa hpa t ht
    have := syncAccounts_all_present userId connectionId F now ts1 accts db0
      pa hpa t ht
    unfold txExists at this ⊢
    rw [htr1]
    exact this
  refine ⟨?_, ?_, ?_, ?_⟩
  · obtain ⟨new, hnew, -⟩ :=
      syncAccounts_transactions userId connectionId
        (fun a d => .ok (F a d)) now ts1 accts db0
    exact ⟨new, by rw [htr1, hnew]⟩
  · rw [htr1]
    exact syncAccounts_nodup userId connectionId _ now ts1 accts db0 hnd
  · rw [hc2]
    exact (syncAccounts_all_skipped userId connectionId F now ts2 accts db1
      hpres).1
  · rw [hdb2, stampLastSync_transactions]
    exact (syncAccounts_all_skipped userId connectionId F now ts2 accts db1
      hpres).2

/-! Concrete fixtures used by the witnesses and counterexamples. -/

/-- A Pluggy account fixture. -/
def paW : PluggyAccount := ⟨"pa1", "Conta Corrente", some "BANK", none, 200, some "BRL"⟩

/-- Two Pluggy transaction fixtures. -/
def txW1 : PluggyTx := ⟨"pt1", some "mercado", -50, "2024-01-05", some "DEBIT", none⟩

def txW2 : PluggyTx := ⟨"pt2", some "salario", 300, "2024-01-10", some "CREDIT", none⟩

/-- A connection fixture owned by `userA`. -/
def connW : BankConnection := ⟨"c1", "userA", "item1", none, none, some "active", none⟩

/-- An initial store holding only that connection. -/
def dbW : DB := ⟨[connW], [], [], 0⟩

/-- A fetcher returning the two transactions for every account. -/
def FW : String → JSDate → List PluggyTx := fun _ _ => [txW1, txW2]

/-- A date fixture (2024-05-15; month is 0-based). -/
def nowW : JSDate := ⟨2024, 4, 15⟩

/-- The result of a first concrete pass. -/
def run1W : (Nat × Nat) × DB × List (String × JSDate) :=
  (syncBankData "k" "item1" "c1" "userA" (fun _ _ => .ok [paW])
    (fun a d => .ok (FW a d)) nowW 5 dbW).toOption.getD ((0, 0), dbW, [])

/-- The result of a second, identical pass on the first pass's store. -/
def run2W : (Nat × Nat) × DB × List (String × JSDate) :=
  (syncBankData "k" "item1" "c1" "userA" (fun _ _ => .ok [paW])
    (fun a d => .ok (FW a d)) nowW 6 run1W.2.1).toOption.getD ((0, 0), dbW, [])

/-- Witness for C1 at the concrete fixtures. -/
theorem sync_idempotent_by_tx_id_witness :
    (((dbW.transactions.map (fun t => t.pluggy_transaction_id)).Nodup) ∧
      ((∃ new, run1W.2.1.transactions = dbW.transactions ++ new) ∧
        (run1W.2.1.transactions.map
          (fun t => t.pluggy_transaction_id)).Nodup ∧
        run2W.1.2 = 0 ∧
        run2W.2.1.transactions = run1W.2.1.transactions)) ∧
    run1W.1 = (1, 2) ∧ run2W.1 = (1, 0) := by
  refine ⟨⟨by simp [dbW], ?_⟩, by decide, by decide⟩
  exact sync_idempotent_by_tx_id "k" "item1" "c1" "userA" [paW] FW nowW 5 6
    dbW run1W.2.1 run2W.2.1 run1W.1 run2W.1 run1W.2.2 run2W.2.2
    (by simp [dbW]) rfl rfl

/-! ## Claim C3 -/

/-- C3. Balance overwrite semantics: when the account upsert finds an
existing row by external account identifier, the updated row stores exactly
the aggregator's reported balance — it is replaced, never summed with the
previous value. -/
theorem balance_overwritten (userId connectionId : String) (nowTs : Nat)
    (account : PluggyAccount) (db : DB) (existing : BankAccount)
    (h : findAccount db account.id = some existing) :
    ∀ a ∈ (upsertAccount userId connectionId nowTs account db).2.accounts,
      a.id = existing.id → a.balance = account.balance := by
  unfold upsertAccount
  rw [h]
  intro a ha hid
  obtain ⟨b, hb, rfl⟩ := List.mem_map.1 ha
  by_cases hbid : (b.id == existing.id) = true
  · simp [hbid]
  · rw [if_neg hbid] at hid ⊢
    exact absurd (by simpa using hid) (by simpa using hbid)

/-- The pre-existing account row fixture, with stored balance 100. -/
def exW : BankAccount :=
  ⟨0, "userA", "c1", "pa1", "Conta Corrente", some "BANK", none, 100, "BRL", paW, 0⟩

/-- A store already holding that account row. -/
def dbW3 : DB := ⟨[connW], [exW], [], 1⟩

/-- The aggregator now reports balance 85.50 for the same account. -/
def paW85 : PluggyAccount :=
  ⟨"pa1", "Conta Corrente", some "BANK", none, 171 / 2, some "BRL"⟩

/-- Witness for C3: stored 100.00, reported 85.50, stored becomes 85.50
(not 185.50). -/
theorem balance_overwritten_witness :
    (findAccount dbW3 paW85.id = some exW) ∧
    (∀ a ∈ (upsertAccount "userA" "c1" 7 paW85 dbW3).2.accounts,
      a.id = exW.id → a.balance = paW85.balance) ∧
    (upsertAccount "userA" "c1" 7 paW85 dbW3).2.accounts.map
      (fun a => a.balance) = [171 / 2] := by
  refine ⟨rfl, balance_overwritten "userA" "c1" 7 paW85 dbW3 exW rfl, rfl⟩

/-! ## Claim C8 -/

/-- C8. Trailing fetch window: in every successful pass, every
transaction-fetch call recorded in the log uses the start date "now minus
three months" (`setMonth(getMonth() - 3)`, a fixed constant); the call
passes only this lower bound, the upper end defaulting to now. -/
theorem fetch_window_three_months (apiKey itemId connectionId userId : String)
    (fetchAccounts : String → String → Except String (List PluggyAccount))
    (ft : String → JSDate → Except String (List PluggyTx)) (now : JSDate)
    (ts : Nat) (db : DB) (c : Nat × Nat) (db' : DB)
    (log : List (String × JSDate))
    (h : syncBankData apiKey itemId connectionId userId fetchAccounts ft
      now ts db = .ok (c, db', log)) :
    ∀ e ∈ log, e.2 = subThreeMonths now := by
  obtain ⟨accts, -, -, -, hlog⟩ :=
    syncBankData_ok_elim apiKey itemId connectionId userId fetchAccounts ft
      now ts db c db' log h
  rw [hlog, syncAccounts_log userId connectionId ft now ts accts db]
  intro e he
  obtain ⟨pa, -, rfl⟩ := List.mem_map.1 he
  rfl

/-- Witness for C8 at the concrete first pass: one fetch call, for the
listed account, with start date 2024-02-15 (three months before
2024-05-15). -/
theorem fetch_window_three_months_witness :
    (∀ e ∈ run1W.2.2, e.2 = subThreeMonths nowW) ∧
    run1W.2.2 = [("pa1", ⟨2024, 1, 15⟩)] := by
  refine ⟨fetch_window_three_months "k" "item1" "c1" "userA"
    (fun _ _ => .ok [paW]) (fun a d => .ok (FW a d)) nowW 5 dbW
    run1W.1 run1W.2.1 run1W.2.2 rfl, by decide⟩

/-! ## Claim C5 -/

/-- C5 (amended). Partial failure of one account's transaction fetch does
not abort the pass: rows already committed remain committed (the
transactions table only grows), the upsert of every listed account —
before and after the failing one — is committed, and the fetch is
attempted for every listed account. -/
theorem partial_failure_pass_continues
    (apiKey itemId connectionId userId : String)
    (fetchAccounts : String → String → Except String (List PluggyAccount))
    (ft : String → JSDate → Except String (List PluggyTx)) (now : JSDate)
    (ts : Nat) (db : DB) (accts : List PluggyAccount) (c : Nat × Nat)
    (db' : DB) (log : List (String × JSDate))
    (hfa : fetchAccounts apiKey itemId = .ok accts)
    (h : syncBankData apiKey itemId connectionId userId fetchAccounts ft
      now ts db = .ok (c, db', log)) :
    (∃ new, db'.transactions = db.transactions ++ new) ∧
    (∀ pa ∈ accts, acctPresent db' pa.id) ∧
    log = accts.map (fun pa => (pa.id, subThreeMonths now)) := by
  obtain ⟨a1, hfa1, -, hdb', hlog⟩ :=
    syncBankData_ok_elim apiKey itemId connectionId userId fetchAccounts ft
      now ts db c db' log h
  have ha1 : a1 = accts := by
    rw [hfa] at hfa1
    simpa using hfa1.symm
  rw [ha1] at hdb' hlog
  refine ⟨?_, ?_, ?_⟩
  · obtain ⟨new, hnew, -⟩ :=
      syncAccounts_transactions userId connectionId ft now ts accts db
    refine ⟨new, ?_⟩
    rw [hdb', stampLastSync_transactions, hnew]
  · intro pa hpa
    have := syncAccounts_all_accts userId connectionId ft now ts accts db
      pa hpa
    unfold acctPresent at this ⊢
    rw [hdb', stampLastSync_accounts]
    exact this
  · rw [hlog, syncAccounts_log userId connectionId ft now ts accts db]

/-- Three account fixtures for the partial-failure scenario. -/
def paA1 : PluggyAccount := ⟨"a1", "A1", none, none, 10, none⟩

def paA2 : PluggyAccount := ⟨"a2", "A2", none, none, 20, none⟩

def paA3 : PluggyAccount := ⟨"a3", "A3", none, none, 30, none⟩

/-- A transaction fetcher that fails for account `a2` only. -/
def ftFail2 : String → JSDate → Except String (List PluggyTx) := fun a _ =>
  if a == "a2" then .error "Failed to get transactions"
  else if a == "a1" then .ok [txW1]
  else .ok [txW2]

/-- The pass over accounts `a1`, `a2`, `a3` with `a2`'s fetch failing. -/
def runC5 : (Nat × Nat) × DB × List (String × JSDate) :=
  (syncBankData "k" "item1" "c1" "userA" (fun _ _ => .ok [paA1, paA2, paA3])
    ftFail2 nowW 5 dbW).toOption.getD ((0, 0), dbW, [])

/-- Counterexample to C5 as stated: with the transaction fetch failing for
account 2 of 3, account 3 IS attempted — its fetch call is made, its
account row is upserted, and it is counted — because the failure is caught
per account and the loop continues. -/
theorem partial_failure_abort_cex :
    (ftFail2 "a2" (subThreeMonths nowW)).isOk = false ∧
    runC5.2.2.map Prod.fst = ["a1", "a2", "a3"] ∧
    (findAccount runC5.2.1 "a3").isSome = true ∧
    (findAccount runC5.2.1 "a1").isSome = true ∧
    runC5.1.1 = 3 ∧
    runC5.2.1.transactions.map (fun t => t.pluggy_transaction_id) =
      ["pt1", "pt2"] := by decide

/-- Witness for the amended C5 at the same fixtures. -/
theorem partial_failure_pass_continues_witness :
    ((fun (_ : String) (_ : String) =>
        (.ok [paA1, paA2, paA3] : Except String (List PluggyAccount)))
      "k" "item1" = .ok [paA1, paA2, paA3]) ∧
    ((∃ new, runC5.2.1.transactions = dbW.transactions ++ new) ∧
      (∀ pa ∈ [paA1, paA2, paA3], acctPresent runC5.2.1 pa.id) ∧
      runC5.2.2 = [paA1, paA2, paA3].map
        (fun pa => (pa.id, subThreeMonths nowW))) := by
  refine ⟨rfl, partial_failure_pass_continues "k" "item1" "c1" "userA"
    (fun _ _ => .ok [paA1, paA2, paA3]) ftFail2 nowW 5 dbW
    [paA1, paA2, paA3] runC5.1 runC5.2.1 runC5.2.2 rfl rfl⟩

/-! ## Claim C9 -/

/-- Counterexample to C9 as stated: the migration does NOT declare a
uniqueness constraint on `bank_accounts.pluggy_account_id` (while it does
on `bank_transactions.pluggy_transaction_id`). -/
theorem dedup_constraints_cex :
    ¬(enforcesUnique bankTransactionsTable "pluggy_transaction_id" = true ∧
      enforcesUnique bankAccountsTable "pluggy_account_id" = true) := by
  decide

/-- C9 (amended): the persisted schema enforces uniqueness of the external
transaction identifier (`pluggy_transaction_id TEXT NOT NULL UNIQUE`), but
declares no uniqueness constraint on the external account identifier
(`pluggy_account_id TEXT NOT NULL`). -/
theorem dedup_constraints :
    enforcesUnique bankTransactionsTable "pluggy_transaction_id" = true ∧
    enforcesUnique bankAccountsTable "pluggy_account_id" = false := by
  decide

/-! ## Claim C2 -/

/-- Branch reduction of the handler in the ownership-mismatch case. -/
theorem serveSync_forbidden_eq (env : ServeEnv) (req : SyncRequest) (db : DB)
    (hdr : String) (uid : String) (conn : BankConnection) (apiKey : String)
    (hact : req.action = "sync")
    (hhdr : req.authHeader = some hdr)
    (htok : env.tokenUser (stripBearer hdr) = some uid)
    (hkey : env.pluggyAuth = .ok apiKey)
    (hitem : jsFalsy req.itemId = false)
    (hcid : jsFalsy req.connectionId = false)
    (hconn : db.connections.find? (fun c => c.id == req.connectionId.getD "")
      = some conn)
    (hne : conn.user_id ≠ uid) :
    serveSync env req db =
      (mkErr "Not authorized to access this connection", db,
        [Step.authUser, Step.pluggyAuth]) := by
  unfold serveSync verifyConnectionOwnership
  simp only [hhdr, htok, hkey, hact, hconn, hitem, hcid]
  simp [hne]

/-- C2. Ownership enforcement with atomicity: a sync request for a
connection owned by another user fails with the forbidden outcome (401,
`Not authorized to access this connection`) and performs zero writes —
the store is returned unchanged. -/
theorem sync_forbidden_zero_writes (env : ServeEnv) (req : SyncRequest)
    (db : DB) (hdr : String) (uid : String) (conn : BankConnection)
    (apiKey : String)
    (hact : req.action = "sync")
    (hhdr : req.authHeader = some hdr)
    (htok : env.tokenUser (stripBearer hdr) = some uid)
    (hkey : env.pluggyAuth = .ok apiKey)
    (hitem : jsFalsy req.itemId = false)
    (hcid : jsFalsy req.connectionId = false)
    (hconn : db.connections.find? (fun c => c.id == req.connectionId.getD "")
      = some conn)
    (hne : conn.user_id ≠ uid) :
    (serveSync env req db).1.status = 401 ∧
    (serveSync env req db).1.errMsg =
      some "Not authorized to access this connection" ∧
    (serveSync env req db).2.1 = db := by
  rw [serveSync_forbidden_eq env req db hdr uid conn apiKey hact hhdr htok
    hkey hitem hcid hconn hne]
  exact ⟨rfl, rfl, rfl⟩

/-- The token resolver fixture: `tokA` belongs to `userA`, `tokB` to
`userB`. -/
def tokUW : String → Option String := fun t =>
  if t == "tokA" then some "userA"
  else if t == "tokB" then some "userB"
  else none

/-- The handler environment fixture. -/
def envW : ServeEnv where
  tokenUser := tokUW
  pluggyAuth := .ok "k"
  connectToken := fun _ => .ok "ct"
  fetchAccounts := fun _ _ => .ok [paW]
  fetchTx := fun _ _ => .ok [txW1, txW2]
  now := nowW
  nowTs := 5

/-- A sync request authenticated as `userB` naming `userA`'s connection. -/
def reqWB : SyncRequest :=
  ⟨some "Bearer tokB", "sync", some "item1", none, some "c1", none,
    some "userB"⟩

/-- Witness for C2: `userB` syncing `userA`'s connection gets 401 and the
store is untouched. -/
theorem sync_forbidden_zero_writes_witness :
    (connW.user_id ≠ "userB") ∧
    ((serveSync envW reqWB dbW).1.status = 401 ∧
      (serveSync envW reqWB dbW).1.errMsg =
        some "Not authorized to access this connection" ∧
      (serveSync envW reqWB dbW).2.1 = dbW) := by
  refine ⟨by decide, sync_forbidden_zero_writes envW reqWB dbW "Bearer tokB"
    "userB" connW "k" rfl rfl rfl rfl rfl rfl rfl (by decide)⟩

/-! ## Claim C6 -/

/-- A sync request correctly authenticated as the connection's owner. -/
def reqWA : SyncRequest :=
  ⟨some "Bearer tokA", "sync", some "item1", none, some "c1", none, none⟩

/-- Counterexample to C6 as stated: in a successful sync invocation the
Pluggy API key is obtained (milestone `pluggyAuth`) strictly before the
connection-ownership check completes (milestone `ownershipCheck`) — the
ownership check is NOT the first step of the pass. -/
theorem ownership_not_first_cex :
    (serveSync envW reqWA dbW).2.2 =
      [Step.authUser, Step.pluggyAuth, Step.ownershipCheck, Step.syncRun] ∧
    ¬((serveSync envW reqWA dbW).2.2.indexOf Step.ownershipCheck <
        (serveSync envW reqWA dbW).2.2.indexOf Step.pluggyAuth) := by
  decide

/-- C6 (amended). The milestone order of every handler invocation is a
prefix of: resolve the caller from the JWT, authenticate against the
aggregator, validate connection ownership, run the sync body. In
particular ownership is validated after the aggregator authentication, and
the store is only ever modified once the ownership check has passed. -/
theorem sync_step_order (env : ServeEnv) (req : SyncRequest) (db : DB) :
    ((serveSync env req db).2.2).isPrefixOf
      [Step.authUser, Step.pluggyAuth, Step.ownershipCheck, Step.syncRun]
      = true ∧
    ((serveSync env req db).2.1 ≠ db →
      Step.ownershipCheck ∈ (serveSync env req db).2.2 ∧
      Step.pluggyAuth ∈ (serveSync env req db).2.2) := by
  constructor
  · unfold serveSync
    dsimp only
    repeat' split <;> try rfl
  · unfold serveSync
    dsimp only
    repeat' split
    all_goals intro h
    all_goals
      first
        | exact absurd rfl h
        | exact ⟨by simp, by simp⟩

/-! ## Claim C7 -/

/-- Branch reduction of the handler in the connection-not-found case. -/
theorem serveSync_notfound_eq (env : ServeEnv) (req : SyncRequest) (db : DB)
    (hdr : String) (uid : String) (apiKey : String)
    (hact : req.action = "sync")
    (hhdr : req.authHeader = some hdr)
    (htok : env.tokenUser (stripBearer hdr) = some uid)
    (hkey : env.pluggyAuth = .ok apiKey)
    (hitem : jsFalsy req.itemId = false)
    (hcid : jsFalsy req.connectionId = false)
    (hconn : db.connections.find? (fun c => c.id == req.connectionId.getD "")
      = none) :
    serveSync env req db =
      (mkErr "Connection not found", db, [Step.authUser, Step.pluggyAuth]) := by
  unfold serveSync verifyConnectionOwnership
  simp only [hhdr, htok, hkey, hact, hconn, hitem, hcid]
  simp

/-- C7 (amended). Ownership-check error surfacing: with a nonexistent
connection identifier the pass fails with `Connection not found`, surfaced
as HTTP 500 (the catch block maps it to 500, not to a 401/404-equivalent,
because the message contains none of `authorization`/`authorized`/`token`);
with a connection owned by someone else it fails with `Not authorized to
access this connection`, surfaced as 401. Neither failure writes to the
store. -/
theorem ownership_error_surface (env : ServeEnv) (req : SyncRequest)
    (db : DB) (hdr : String) (uid : String) (apiKey : String)
    (hact : req.action = "sync")
    (hhdr : req.authHeader = some hdr)
    (htok : env.tokenUser (stripBearer hdr) = some uid)
    (hkey : env.pluggyAuth = .ok apiKey)
    (hitem : jsFalsy req.itemId = false)
    (hcid : jsFalsy req.connectionId = false) :
    (db.connections.find? (fun c => c.id == req.connectionId.getD "") = none →
      (serveSync env req db).1.status = 500 ∧
      (serveSync env req db).1.errMsg = some "Connection not found" ∧
      (serveSync env req db).2.1 = db) ∧
    (∀ conn, db.connections.find?
        (fun c => c.id == req.connectionId.getD "") = some conn →
      conn.user_id ≠ uid →
      (serveSync env req db).1.status = 401 ∧
      (serveSync env req db).1.errMsg =
        some "Not authorized to access this connection" ∧
      (serveSync env req db).2.1 = db) := by
  constructor
  · intro hconn
    rw [serveSync_notfound_eq env req db hdr uid apiKey hact hhdr htok hkey
      hitem hcid hconn]
    exact ⟨rfl, rfl, rfl⟩
  · intro conn hconn hne
    rw [serveSync_forbidden_eq env req db hdr uid conn apiKey hact hhdr htok
      hkey hitem hcid hconn hne]
    exact ⟨rfl, rfl, rfl⟩

/-- A sync request naming a connection identifier that does not exist. -/
def reqWX : SyncRequest :=
  ⟨some "Bearer tokA", "sync", some "item1", none, some "cMISSING", none,
    none⟩

/-- Counterexample to C7 as stated: the not-found failure is surfaced as
500, not as a 401/404-equivalent status. -/
theorem notfound_status_cex :
    (serveSync envW reqWX dbW).1.errMsg = some "Connection not found" ∧
    (serveSync envW reqWX dbW).1.status = 500 ∧
    ¬((serveSync envW reqWX dbW).1.status = 401 ∨
      (serveSync envW reqWX dbW).1.status = 404) := by
  decide

/-- Witness for the amended C7, at a store in which `cMISSING` names no
connection (and no connection at all is owned by another user). -/
theorem ownership_error_surface_witness :
    (jsFalsy reqWX.connectionId = false) ∧
    ((dbW.connections.find?
        (fun c => c.id == reqWX.connectionId.getD "") = none →
      (serveSync envW reqWX dbW).1.status = 500 ∧
      (serveSync envW reqWX dbW).1.errMsg = some "Connection not found" ∧
      (serveSync envW reqWX dbW).2.1 = dbW) ∧
    (∀ conn, dbW.connections.find?
        (fun c => c.id == reqWX.connectionId.getD "") = some conn →
      conn.user_id ≠ "userA" →
      (serveSync envW reqWX dbW).1.status = 401 ∧
      (serveSync envW reqWX dbW).1.errMsg =
        some "Not authorized to access this connection" ∧
      (serveSync envW reqWX dbW).2.1 = dbW)) := by
  exact ⟨rfl, ownership_error_surface envW reqWX dbW "Bearer tokA" "userA"
    "k" rfl rfl rfl rfl rfl rfl⟩

/-! ## Claim C10 -/

/-- C10. The client-supplied `userId` body field is inert: the handler's
result (response, store, trace) is identical for any two requests differing
only in that field, every transaction row written by the call carries the
token-derived user identifier, and every account row either keeps the local
identifier and owner of a pre-existing row or carries the token-derived
user identifier. -/
theorem client_userId_inert (env : ServeEnv) (req : SyncRequest) (db : DB)
    (u1 u2 : Option String) (hdr : String) (uid : String)
    (hhdr : req.authHeader = some hdr)
    (htok : env.tokenUser (stripBearer hdr) = some uid) :
    (serveSync env { req with userId := u1 } db =
      serveSync env { req with userId := u2 } db) ∧
    (∃ new, (serveSync env req db).2.1.transactions = db.transactions ++ new ∧
      ∀ r ∈ new, r.user_id = uid) ∧
    (∀ a ∈ (serveSync env req db).2.1.accounts,
      (∃ b ∈ db.accounts, b.id = a.id ∧ b.user_id = a.user_id) ∨
        a.user_id = uid) := by
  have base : (∃ new, db.transactions = db.transactions ++ new ∧
      ∀ r ∈ new, r.user_id = uid) ∧
      (∀ a ∈ db.accounts,
        (∃ b ∈ db.accounts, b.id = a.id ∧ b.user_id = a.user_id) ∨
          a.user_id = uid) :=
    ⟨⟨[], by simp, by simp⟩, fun a ha => Or.inl ⟨a, ha, rfl, rfl⟩⟩
  refine ⟨by cases req; rfl, ?_⟩
  unfold serveSync
  simp only [hhdr, htok]
  cases hkey : env.pluggyAuth with
  | error e => exact base
  | ok apiKey =>
    dsimp only
    by_cases h1 : (req.action == "create-connect-token") = true
    · rw [if_pos h1]
      cases env.connectToken apiKey <;> exact base
    · rw [if_neg h1]
      by_cases h2 : (req.action == "get-accounts") = true
      · rw [if_pos h2]
        by_cases hi : jsFalsy req.itemId = true
        · rw [if_pos hi]; exact base
        · rw [if_neg hi]
          cases env.fetchAccounts apiKey (req.itemId.getD "") <;> exact base
      · rw [if_neg h2]
        by_cases h3 : (req.action == "get-transactions") = true
        · rw [if_pos h3]
          by_cases ha : jsFalsy req.accountId = true
          · rw [if_pos ha]; exact base
          · rw [if_neg ha]
            cases env.fetchTx (req.accountId.getD "") req.from_ <;>
              exact base
        · rw [if_neg h3]
          by_cases h4 : (req.action == "sync") = true
          · rw [if_pos h4]
            by_cases hi : jsFalsy req.itemId = true
            · rw [if_pos hi]; exact base
            · rw [if_neg hi]
              by_cases hc : jsFalsy req.connectionId = true
              · rw [if_pos hc]; exact base
              · rw [if_neg hc]
                cases verifyConnectionOwnership db
                    (req.connectionId.getD "") uid with
                | error e => exact base
                | ok unitv =>
                  cases hs : syncBankData apiKey (req.itemId.getD "")
                      (req.connectionId.getD "") uid env.fetchAccounts
                      (fun a d => env.fetchTx a (some d)) env.now env.nowTs
                      db with
                  | error e => exact base
                  | ok val =>
                    obtain ⟨counts, db2, lg⟩ := val
                    obtain ⟨accts, -, -, hdb2, -⟩ :=
                      syncBankData_ok_elim apiKey (req.itemId.getD "")
                        (req.connectionId.getD "") uid env.fetchAccounts
                        (fun a d => env.fetchTx a (some d)) env.now
                        env.nowTs db counts db2 lg hs
                    constructor
                    · obtain ⟨new, hnew, hu⟩ :=
                        syncAccounts_transactions uid
                          (req.connectionId.getD "")
                          (fun a d => env.fetchTx a (some d)) env.now
                          env.nowTs accts db
                      refine ⟨new, ?_, hu⟩
                      show db2.transactions = db.transactions ++ new
                      rw [hdb2, stampLastSync_transactions, hnew]
                    · intro a ha
                      have ha' : a ∈ (syncAccounts uid
                          (req.connectionId.getD "")
                          (fun a d => env.fetchTx a (some d)) env.now
                          env.nowTs accts db).2.1.accounts := by
                        have : a ∈ db2.accounts := ha
                        rw [hdb2, stampLastSync_accounts] at this
                        exact this
                      exact syncAccounts_user_ids uid
                        (req.connectionId.getD "")
                        (fun a d => env.fetchTx a (some d)) env.now
                        env.nowTs accts db a ha'
          · rw [if_neg h4]
            exact base

/-- Witness for C10: two requests differing only in the body `userId`
(`some "userX"` vs `none`) produce identical outcomes, and the rows written
by the pass carry the token-derived `userA`. -/
theorem client_userId_inert_witness :
    (envW.tokenUser (stripBearer "Bearer tokA") = some "userA") ∧
    ((serveSync envW { reqWA with userId := some "userX" } dbW =
      serveSync envW { reqWA with userId := none } dbW) ∧
    (∃ new, (serveSync envW reqWA dbW).2.1.transactions =
        dbW.transactions ++ new ∧
      ∀ r ∈ new, r.user_id = "userA") ∧
    (∀ a ∈ (serveSync envW reqWA dbW).2.1.accounts,
      (∃ b ∈ dbW.accounts, b.id = a.id ∧ b.user_id = a.user_id) ∨
        a.user_id = "userA")) := by
  exact ⟨rfl, client_userId_inert envW reqWA dbW (some "userX") none
    "Bearer tokA" "userA" rfl rfl⟩

/-! ## Claim C4 -/

/-- C4. Goal auto-progress: for a newly observed bank transaction with
positive amount or type `CREDIT`, if the user has no incomplete goal
(accumulated strictly below target) nothing is modified; otherwise the
first incomplete goal in deadline-ascending-NULLs-last order gains 10% of
the absolute transaction amount, clamped to its target amount — so the
accumulated amount never exceeds the target. -/
theorem goal_auto_progress_spec (goals : List Goal) (uid : String)
    (tx : TxEvent) (htrig : tx.amount > 0 ∨ tx.type_ = some "CREDIT") :
    ((fetchGoals goals uid).filter
        (fun g => g.current_amount < g.target_amount) = [] →
      goalAutoProgress goals uid tx = goals) ∧
    (∀ g rest, (fetchGoals goals uid).filter
        (fun g => g.current_amount < g.target_amount) = g :: rest →
      goalAutoProgress goals uid tx =
        goals.map (fun x =>
          if x.id == g.id then
            { x with current_amount := (min
                (g.current_amount + |tx.amount| * (1 / 10))
                g.target_amount) }
          else x) ∧
      min (g.current_amount + |tx.amount| * (1 / 10)) g.target_amount ≤
        g.target_amount) := by
  have hcond : (decide (tx.amount > 0) || (tx.type_ == some "CREDIT"))
      = true := by
    rcases htrig with h | h
    · simp [h]
    · simp [h]
  constructor
  · intro hnil
    unfold goalAutoProgress
    rw [if_pos hcond]
    dsimp only
    rw [hnil]
  · intro g rest heq
    unfold goalAutoProgress
    rw [if_pos hcond]
    dsimp only
    rw [heq]
    exact ⟨rfl, min_le_right _ _⟩

/-- The goal fixture: target 1000, accumulated 950, no deadline. -/
def gW : Goal := ⟨1, "u", "meta", 1000, 950, none⟩

/-- Witness for C4 at the cap scenario of the spec: a 1000 income (10% =
100) on a 950/1000 goal ends at exactly 1000, not 1050. -/
theorem goal_auto_progress_spec_witness :
    ((1000 : ℚ) > 0 ∨ (none : Option String) = some "CREDIT") ∧
    ((fetchGoals [gW] "u").filter
      (fun g => g.current_amount < g.target_amount) = [gW]) ∧
    goalAutoProgress [gW] "u" ⟨1000, none⟩ =
      [{ gW with current_amount := (min
          (gW.current_amount + |(1000 : ℚ)| * (1 / 10))
          gW.target_amount) }] ∧
    (goalAutoProgress [gW] "u" ⟨1000, none⟩).map
      (fun g => g.current_amount) = [1000] := by
  have htrig : ((⟨1000, none⟩ : TxEvent).amount > 0 ∨
      (⟨1000, none⟩ : TxEvent).type_ = some "CREDIT") :=
    Or.inl (by norm_num)
  have hfil : (fetchGoals [gW] "u").filter
      (fun g => g.current_amount < g.target_amount) = [gW] := by
    norm_num [fetchGoals, sortByDeadline, insertByDeadline, gW, List.filter]
  have h := (goal_auto_progress_spec [gW] "u" ⟨1000, none⟩ htrig).2 gW [] hfil
  refine ⟨Or.inl (by norm_num), hfil, ?_, ?_⟩
  · rw [h.1]
    simp
  · rw [h.1]
    have habs : |(1000 : ℚ)| = 1000 := by norm_num
    simp only [List.map_cons, List.map_nil, gW, habs]
    norm_num [min_def]

end FinWise
